import Mathlib

/-!
Shallow embedding of the SPY-tracker checkpoint capture and prediction engine
(src/backend/app: scheduler.py, capture.py, providers.py, ai_prediction_service.py,
ai_endpoints.py, routers/predictions.py, routers/admin.py, historical_simulation.py),
with theorems settling the frozen claims about it.

Conventions. Dates are natural numbers (ordinal days); minute-bar timestamps are
integers (minutes, in the provider's UTC frame); prices are rationals. SQLAlchemy
rows become structures; a session becomes an explicit `Db` value threaded through
the operations; `query(...).first()` becomes `List.find?`; committing an in-place
mutation of a fetched row becomes replace-first-match in the table list.
-/

set_option maxHeartbeats 1000000

namespace SPYTracker

/-- The closed checkpoint enumeration (models.py comments, scheduler.py capture_price).
`open` is a Lean keyword, hence the trailing underscore. -/
inductive Checkpoint where
  | preMarket
  | open_
  | noon
  | twoPM
  | close
  deriving DecidableEq, Repr

/-- One `daily_predictions` row (models.py DailyPrediction), restricted to the columns
the capture/prediction engine reads or writes: the per-checkpoint actuals, the
predicted band, the governance flags and the derived accuracy fields. -/
structure DailyPrediction where
  pdate : ℕ
  preMarket : Option ℚ
  open_ : Option ℚ
  noon : Option ℚ
  twoPM : Option ℚ
  close : Option ℚ
  predLow : Option ℚ
  predHigh : Option ℚ
  source : Option String
  locked : Bool
  rangeHit : Option Bool
  absErrorToClose : Option ℚ
  deriving DecidableEq, Repr

/-- A fresh `DailyPrediction(date=d)` row: every nullable column is null, the
Boolean columns take their schema defaults (rangeHit False, locked False). -/
def emptyDaily (d : ℕ) : DailyPrediction :=
  { pdate := d, preMarket := none, open_ := none, noon := none, twoPM := none,
    close := none, predLow := none, predHigh := none, source := none,
    locked := false, rangeHit := some false, absErrorToClose := none }

/-- Read the actual-price column named by a checkpoint (the field dispatch in
scheduler.py capture_price and the getattr in capture.py). -/
def DailyPrediction.getCheckpoint (p : DailyPrediction) : Checkpoint → Option ℚ
  | .preMarket => p.preMarket
  | .open_ => p.open_
  | .noon => p.noon
  | .twoPM => p.twoPM
  | .close => p.close

/-- Write the actual-price column named by a checkpoint. -/
def DailyPrediction.setCheckpoint (p : DailyPrediction) : Checkpoint → ℚ → DailyPrediction
  | .preMarket, v => { p with preMarket := some v }
  | .open_, v => { p with open_ := some v }
  | .noon, v => { p with noon := some v }
  | .twoPM, v => { p with twoPM := some v }
  | .close, v => { p with close := some v }

/-- One append-only `price_logs` row (models.py PriceLog). -/
structure PriceLog where
  pdate : ℕ
  checkpoint : Checkpoint
  price : ℚ
  deriving DecidableEq, Repr

/-- One `ai_predictions` row (models.py AIPrediction), restricted to the columns the
dedup/atomic-creation service reads or writes. `created_at` is a natural-number
creation stamp. -/
structure AIPrediction where
  pdate : ℕ
  checkpoint : Checkpoint
  predicted_price : ℚ
  confidence : ℚ
  market_context : Option String
  actual_price : Option ℚ
  prediction_error : Option ℚ
  created_at : ℕ
  deriving DecidableEq, Repr

/-- The persisted state the claims range over: the three tables. -/
structure Db where
  daily : List DailyPrediction
  priceLog : List PriceLog
  aiPreds : List AIPrediction
  deriving DecidableEq, Repr

/-- `db.query(DailyPrediction).filter(date == d).first()`. -/
def findDaily (l : List DailyPrediction) (d : ℕ) : Option DailyPrediction :=
  l.find? (fun r => r.pdate == d)

/-- Committing an in-place mutation of the row `first()` returned: replace the
first row with the given date. -/
def replaceFirstDaily : List DailyPrediction → ℕ → DailyPrediction → List DailyPrediction
  | [], _, _ => []
  | x :: xs, d, r => if x.pdate == d then r :: xs else x :: replaceFirstDaily xs d r

/-- providers.py YFinanceProvider.validate_official_price: reject a null price
(and a non-numeric one, which the `Option ℚ` type already excludes), then reject
a non-positive or out-of-band price; the band is [50, 2000] for SPY and
[1, 10000] otherwise. The source compares the upper-cased symbol; the symbol is
taken here as already normalized. -/
def validate_official_price (price : Option ℚ) (symbol : String) : Bool :=
  match price with
  | none => false
  | some p =>
      let min_price : ℚ := if symbol = "SPY" then 50 else 1
      let max_price : ℚ := if symbol = "SPY" then 2000 else 10000
      if p ≤ 0 ∨ p < min_price ∨ p > max_price then false else true

/-- scheduler.py capture_price: given the provider's resolved official price for
(symbol, checkpoint, target_date), abort with no write when the price is null or
fails validation; otherwise load-or-create the DailyPrediction row, set the
checkpoint column unconditionally, append a PriceLog row, and commit. The
provider call itself is external, so the resolved price is a parameter. -/
def capture_price (db : Db) (checkpoint : Checkpoint) (target_date : ℕ)
    (official_price : Option ℚ) (symbol : String) : Db :=
  match official_price with
  | none => db
  | some price =>
      if validate_official_price (some price) symbol = false then db
      else
        match findDaily db.daily target_date with
        | none =>
            let pred := (emptyDaily target_date).setCheckpoint checkpoint price
            { db with daily := db.daily ++ [pred],
                      priceLog := db.priceLog ++ [⟨target_date, checkpoint, price⟩] }
        | some pred0 =>
            let pred := pred0.setCheckpoint checkpoint price
            { db with daily := replaceFirstDaily db.daily target_date pred,
                      priceLog := db.priceLog ++ [⟨target_date, checkpoint, price⟩] }

/-- One 1-minute bar of the intraday DataFrame in capture.py, keyed by its UTC
timestamp in minutes; only the Open and Close columns are read. -/
structure Bar where
  ts : ℤ
  barOpen : ℚ
  barClose : ℚ
  deriving DecidableEq, Repr

/-- capture.py `_get_bar_at_or_before`: try the exact timestamp; then the next
minute; otherwise the last bar of the inclusive slice up to the timestamp
(`df.loc[:ts].iloc[-1]`), which for a timestamp-ascending frame is the latest
bar at or before the target; `None` when that slice is empty. -/
def _get_bar_at_or_before (df : List Bar) (ts : ℤ) : Option Bar :=
  match df.find? (fun b => b.ts == ts) with
  | some b => some b
  | none =>
      match df.find? (fun b => b.ts == ts + 1) with
      | some b => some b
      | none => (df.filter (fun b => decide (b.ts ≤ ts))).getLast?

/-- capture.py CHECKPOINTS: the four minute-bar checkpoints with their local
America/Chicago wall-clock targets, in minutes after midnight (open 8:30,
noon 12:00, twoPM 14:00, close 15:00). -/
def CHECKPOINTS : List (Checkpoint × ℤ) :=
  [(Checkpoint.open_, 510), (Checkpoint.noon, 720), (Checkpoint.twoPM, 840),
   (Checkpoint.close, 900)]

/-- The per-checkpoint value extraction in refresh_actuals_for_date: the open
checkpoint reads the bar's Open column, every other checkpoint its Close. -/
def checkpointPrice (checkpoint : Checkpoint) (bar : Bar) : ℚ :=
  if checkpoint = Checkpoint.open_ then bar.barOpen else bar.barClose

/-- The AIPrediction actual-price update inside refresh_actuals_for_date: locate
the (date, checkpoint) row (query(...).one_or_none(), unique by constraint) and,
when its actual_price is null or force is set, record the actual and the absolute
prediction error. -/
def updateAIActual : List AIPrediction → ℕ → Checkpoint → ℚ → Bool → List AIPrediction
  | [], _, _, _, _ => []
  | a :: rest, d, cp, price, force =>
      if a.pdate = d ∧ a.checkpoint = cp then
        if a.actual_price = none ∨ force then
          { a with actual_price := some price,
                   prediction_error := some |a.predicted_price - price| } :: rest
        else a :: rest
      else a :: updateAIActual rest d cp price force

/-- The dict of filled values returned by refresh_actuals_for_date. -/
structure Filled where
  open_ : Option ℚ
  noon : Option ℚ
  twoPM : Option ℚ
  close : Option ℚ
  deriving DecidableEq, Repr

/-- Record a filled value under its checkpoint key. -/
def setFilled (f : Filled) : Checkpoint → Option ℚ → Filled
  | .preMarket, _ => f
  | .open_, v => { f with open_ := v }
  | .noon, v => { f with noon := v }
  | .twoPM, v => { f with twoPM := v }
  | .close, v => { f with close := v }

/-- The state threaded through the per-checkpoint loop of
refresh_actuals_for_date: the DailyPrediction row being mutated, the
ai_predictions table, and the filled dict. -/
structure RefreshState where
  day : DailyPrediction
  ais : List AIPrediction
  filled : Filled
  deriving DecidableEq, Repr

/-- One iteration of the checkpoint loop in refresh_actuals_for_date: resolve the
bar at or before the checkpoint's UTC instant (the local wall-clock target plus
the date's fixed UTC offset `tzOffset`); skip when unavailable; otherwise extract
the checkpoint's price, write the DailyPrediction column only when it is null or
force is set, and update the matching AIPrediction actuals. -/
def refreshStep (df : List Bar) (target_date : ℕ) (tzOffset : ℤ) (force : Bool)
    (st : RefreshState) (cptime : Checkpoint × ℤ) : RefreshState :=
  let ts_utc := cptime.2 + tzOffset
  match _get_bar_at_or_before df ts_utc with
  | none => st
  | some bar =>
      let price := checkpointPrice cptime.1 bar
      let existing := st.day.getCheckpoint cptime.1
      let st1 :=
        if existing = none ∨ force then
          { st with day := st.day.setCheckpoint cptime.1 price,
                    filled := setFilled st.filled cptime.1 (some price) }
        else st
      { st1 with ais := updateAIActual st1.ais target_date cptime.1 price force }

/-- capture.py refresh_actuals_for_date: with the date's 1-minute frame `df`
(empty when the download yields nothing), return unchanged state when the frame
is empty; otherwise ensure a DailyPrediction row exists, run the checkpoint loop
over CHECKPOINTS, and commit. No price validation is performed on this path, and
no PriceLog row is written. -/
def refresh_actuals_for_date (db : Db) (target_date : ℕ) (df : List Bar)
    (force : Bool) (tzOffset : ℤ) : Db × Filled :=
  let filled0 : Filled := ⟨none, none, none, none⟩
  if df.isEmpty then (db, filled0)
  else
    let day_row := (findDaily db.daily target_date).getD (emptyDaily target_date)
    let dailyTable :=
      match findDaily db.daily target_date with
      | some _ => db.daily
      | none => db.daily ++ [emptyDaily target_date]
    let st := CHECKPOINTS.foldl (refreshStep df target_date tzOffset force)
        ⟨day_row, db.aiPreds, filled0⟩
    ({ daily := replaceFirstDaily dailyTable target_date st.day,
       priceLog := db.priceLog, aiPreds := st.ais }, st.filled)

/-- routers/predictions.py and routers/admin.py `_update_derived_fields` (identical
bodies): when close, predHigh and predLow are all present, set
absErrorToClose = |close - (predHigh + predLow)/2| and
rangeHit = (predLow ≤ close ≤ predHigh); otherwise leave the row unchanged. -/
def _update_derived_fields (pred : DailyPrediction) : DailyPrediction :=
  match pred.close, pred.predHigh, pred.predLow with
  | some c, some hi, some lo =>
      let mid_pred := (hi + lo) / 2
      { pred with absErrorToClose := some |c - mid_pred|,
                  rangeHit := some (decide (lo ≤ c ∧ c ≤ hi)) }
  | _, _, _ => pred

/-- A concrete row with band 580..585 and close 583, used to evaluate the
derived-field computation at the spec's worked example. -/
def exampleRow : DailyPrediction :=
  { pdate := 0, preMarket := none, open_ := none, noon := none, twoPM := none,
    close := some 583, predLow := some 580, predHigh := some 585, source := none,
    locked := false, rangeHit := some false, absErrorToClose := none }

/-- ai_prediction_service.py get_unique_predictions_for_date, step one: the
ORDER BY created_at DESC over the date's rows (a merge sort under the
newest-first comparison). -/
def sortByCreatedDesc (l : List AIPrediction) : List AIPrediction :=
  l.mergeSort (fun a b => decide (b.created_at ≤ a.created_at))

/-- The dedup loop of get_unique_predictions_for_date: walk the newest-first
list, keeping the first row seen per checkpoint (the checkpoint_map insertion
guarded by `not in`). -/
def dedupeByCheckpoint (acc : List (Checkpoint × AIPrediction)) :
    List AIPrediction → List (Checkpoint × AIPrediction)
  | [] => acc
  | p :: rest =>
      if (acc.find? (fun e => decide (e.1 = p.checkpoint))).isSome then
        dedupeByCheckpoint acc rest
      else dedupeByCheckpoint (acc ++ [(p.checkpoint, p)]) rest

/-- ai_prediction_service.py AIPredictionService.get_unique_predictions_for_date:
load the date's predictions newest-first, keep the first seen per checkpoint,
and return them in the fixed order open, noon, twoPM, close. -/
def get_unique_predictions_for_date (db : Db) (target_date : ℕ) : List AIPrediction :=
  let all_predictions :=
    sortByCreatedDesc (db.aiPreds.filter (fun p => p.pdate == target_date))
  let checkpoint_map := dedupeByCheckpoint [] all_predictions
  [Checkpoint.open_, Checkpoint.noon, Checkpoint.twoPM, Checkpoint.close].filterMap
    (fun cp => (checkpoint_map.find? (fun e => decide (e.1 = cp))).map (fun e => e.2))

/-- ai_prediction_service.py AIPredictionService.compute_band_from_predictions:
None for an empty list, otherwise the min and max of the predicted prices
(the unreachable fallback mirrors min/max being total only on non-empty
lists). -/
def compute_band_from_predictions (predictions : List AIPrediction) : Option (ℚ × ℚ) :=
  if predictions.isEmpty then none
  else
    let prices := predictions.map (fun p => p.predicted_price)
    match prices.min?, prices.max? with
    | some lo, some hi => some (lo, hi)
    | _, _ => none

/-- ai_endpoints.py _compute_band_from_ai: the endpoint-local copy of the same
min/max band rule. -/
def _compute_band_from_ai (preds : List AIPrediction) : Option (ℚ × ℚ) :=
  if preds.isEmpty then none
  else
    let prices := preds.map (fun p => p.predicted_price)
    match prices.min?, prices.max? with
    | some lo, some hi => some (lo, hi)
    | _, _ => none

/-- One per-checkpoint prediction of the external predictor (ai_predictor.py
PricePrediction, restricted to the fields the service persists). -/
structure PricePrediction where
  checkpoint : Checkpoint
  predicted_price : ℚ
  confidence : ℚ
  deriving DecidableEq, Repr

/-- ai_predictor.py DayPredictions: one day's generated predictions with their
market-context text. -/
structure DayPredictions where
  pdate : ℕ
  market_context : Option String
  predictions : List PricePrediction
  deriving DecidableEq, Repr

/-- The uq_ai_prediction_date_checkpoint unique constraint of models.py: a
table violates it when two rows share (date, checkpoint). The flush inside the
service surfaces an IntegrityError naming this constraint exactly when the
would-be-committed table violates it. -/
def violatesUniqueAIConstraint : List AIPrediction → Bool
  | [] => false
  | a :: rest =>
      rest.any (fun b => a.pdate == b.pdate && decide (a.checkpoint = b.checkpoint))
        || violatesUniqueAIConstraint rest

/-- The AIPrediction rows create_predictions_atomic builds for a date from the
generated batch. -/
def mkAIRows (target_date : ℕ) (day_predictions : DayPredictions) (now : ℕ) :
    List AIPrediction :=
  day_predictions.predictions.map (fun pred =>
    { pdate := target_date, checkpoint := pred.checkpoint,
      predicted_price := pred.predicted_price, confidence := pred.confidence,
      market_context := day_predictions.market_context,
      actual_price := none, prediction_error := none, created_at := now })

/-- The ai_predictions table as it stands at the flush inside
create_predictions_atomic: the date's rows deleted first when replacing, then
the new batch appended. -/
def atomicInsertTable (db : Db) (target_date : ℕ) (day_predictions : DayPredictions)
    (replace_existing : Bool) (now : ℕ) : List AIPrediction :=
  (if replace_existing then db.aiPreds.filter (fun a => a.pdate != target_date)
   else db.aiPreds) ++ mkAIRows target_date day_predictions now

/-- ai_prediction_service.py AIPredictionService.create_predictions_atomic:
optionally delete the date's rows, insert the new batch, and flush. A
uniqueness violation at flush rolls the transaction back to the pre-call state;
when not replacing, the existing canonical predictions are then re-read and
returned; when replacing, the IntegrityError is re-raised. -/
def create_predictions_atomic (db : Db) (target_date : ℕ)
    (day_predictions : DayPredictions) (replace_existing : Bool) (now : ℕ) :
    Except Unit (Db × List AIPrediction) :=
  let table := atomicInsertTable db target_date day_predictions replace_existing now
  if violatesUniqueAIConstraint table then
    if replace_existing then Except.error ()
    else Except.ok (db, get_unique_predictions_for_date db target_date)
  else Except.ok ({ db with aiPreds := table }, mkAIRows target_date day_predictions now)

/-- ai_prediction_service.py
AIPredictionService.create_or_update_daily_prediction: raise
PredictionLockedException when the stored row is locked AND carries a different
source tag; otherwise load-or-create the row and overwrite band, source and
lock flag. -/
def create_or_update_daily_prediction (db : Db) (target_date : ℕ) (band : ℚ × ℚ)
    (source : String) (locked : Bool) : Except Unit (Db × DailyPrediction) :=
  match findDaily db.daily target_date with
  | some existing_day =>
      if existing_day.locked = true ∧ existing_day.source ≠ some source then
        Except.error ()
      else
        let updated := { existing_day with
                         predLow := some band.1, predHigh := some band.2,
                         source := some source, locked := locked }
        Except.ok ({ db with daily := replaceFirstDaily db.daily target_date updated },
          updated)
  | none =>
      let updated := { emptyDaily target_date with
                       predLow := some band.1, predHigh := some band.2,
                       source := some source, locked := locked }
      Except.ok ({ db with daily := db.daily ++ [updated] }, updated)

/-- ai_endpoints.py create_ai_prediction_for_date after its lock guard: compute
the band from existing unique predictions when present; otherwise persist the
generated batch (an IntegrityError race at flush rolls back and re-reads, and
an empty re-read is a 500), deriving the band from the unique rows or, if that
read is empty, from the in-memory batch. Returns the updated table and the
band, or the HTTP error code. -/
def resolveBandPath (db : Db) (target_date : ℕ) (generated : DayPredictions)
    (now : ℕ) : Except ℕ (Db × ℚ × ℚ) :=
  let existing_ai_preds := get_unique_predictions_for_date db target_date
  if existing_ai_preds.isEmpty = false then
    match compute_band_from_predictions existing_ai_preds with
    | some band => Except.ok (db, band)
    | none => Except.error 500
  else
    let table := db.aiPreds ++ mkAIRows target_date generated now
    if violatesUniqueAIConstraint table then
      let again := get_unique_predictions_for_date db target_date
      if again.isEmpty then Except.error 500
      else
        match compute_band_from_predictions again with
        | some band => Except.ok (db, band)
        | none => Except.error 500
    else
      let db2 : Db := { db with aiPreds := table }
      let unique_preds := get_unique_predictions_for_date db2 target_date
      if unique_preds.isEmpty then
        match (generated.predictions.map (fun p => p.predicted_price)).min?,
              (generated.predictions.map (fun p => p.predicted_price)).max? with
        | some lo, some hi => Except.ok (db2, (lo, hi))
        | _, _ => Except.error 500
      else
        match compute_band_from_predictions unique_preds with
        | some band => Except.ok (db2, band)
        | none => Except.error 500

/-- The final band write of create_ai_prediction_for_date: load-or-create the
day row, set predLow/predHigh, source "ai" and locked True, and commit. -/
def writeBandAndLock (db : Db) (target_date : ℕ) (band : ℚ × ℚ) : Db :=
  match findDaily db.daily target_date with
  | none =>
      { db with daily := db.daily ++
                 [{ emptyDaily target_date with
                    predLow := some band.1, predHigh := some band.2,
                    source := some "ai", locked := true }] }
  | some day =>
      { db with daily := replaceFirstDaily db.daily target_date
                 ({ day with
                    predLow := some band.1, predHigh := some band.2,
                    source := some "ai", locked := true }) }

/-- ai_endpoints.py create_ai_prediction_for_date: refuse with HTTP 409 when
the date's DailyPrediction row is already locked; otherwise resolve the band
and write it into the locked day row. The external predictor output is the
`generated` parameter. -/
def create_ai_prediction_for_date (db : Db) (target_date : ℕ)
    (generated : DayPredictions) (now : ℕ) : Except ℕ Db :=
  match findDaily db.daily target_date with
  | some existing_day =>
      if existing_day.locked then Except.error 409
      else
        match resolveBandPath db target_date generated now with
        | Except.error code => Except.error code
        | Except.ok (db2, band) => Except.ok (writeBandAndLock db2 target_date band)
  | none =>
      match resolveBandPath db target_date generated now with
      | Except.error code => Except.error code
      | Except.ok (db2, band) => Except.ok (writeBandAndLock db2 target_date band)

/-- One daily OHLCV bar (a row of the yfinance daily history frame used by the
historical simulator). -/
structure DailyBar where
  day : ℕ
  dayOpen : ℚ
  dayHigh : ℚ
  dayLow : ℚ
  dayClose : ℚ
  volume : ℕ
  deriving DecidableEq, Repr

/-- yfinance `Ticker.history(start, end, interval="1d")` as the simulator uses
it: the daily bars with start ≤ day < end. The end bound is exclusive, which is
exactly what the simulator's leakage comment relies on. -/
def yfDailyHistory (fullHistory : List DailyBar) (startDay endDay : ℕ) : List DailyBar :=
  fullHistory.filter (fun b => decide (startDay ≤ b.day) && decide (b.day < endDay))

/-- The context payload built by TimeAwareAIPredictor._gather_market_context
(historical_simulation.py), restricted to its rational-valued fields: the
pre-market proxy and previous close (both the last fetched close), the
lookback-window high and low, and the recent price rows handed to the model.
The annualized volatility is a real-valued function of these same fetched
closes and is omitted; its inputs are the bars of the fetched frame. -/
structure MarketContext where
  target_date : ℕ
  pre_market_price : Option ℚ
  previous_close : Option ℚ
  recent_high : ℚ
  recent_low : ℚ
  recent_prices : List DailyBar
  deriving DecidableEq, Repr

/-- historical_simulation.py TimeAwareAIPredictor._gather_market_context: fetch
the daily history with the simulated date as the exclusive end bound and the
start 3x the lookback behind it, raise ValueError when it is empty, and
otherwise build the context: pre-market and previous close are the last fetched
close; high, low and recent_prices come from the lookback tail. -/
def _gather_market_context (fullHistory : List DailyBar) (target_date : ℕ)
    (lookback_days : ℕ) : Except Unit MarketContext :=
  let start_date := target_date - lookback_days * 3
  let hist := yfDailyHistory fullHistory start_date target_date
  if hist.isEmpty then Except.error ()
  else
    Except.ok
      { target_date := target_date,
        pre_market_price := hist.getLast?.map (fun b => b.dayClose),
        previous_close := hist.getLast?.map (fun b => b.dayClose),
        recent_high := ((hist.drop (hist.length - lookback_days)).map
          (fun b => b.dayHigh)).max?.getD 0,
        recent_low := ((hist.drop (hist.length - lookback_days)).map
          (fun b => b.dayLow)).min?.getD 0,
        recent_prices := hist.drop (hist.length - lookback_days) }

/-- Concrete values used to evaluate the theorems below: a day row whose open
checkpoint is already populated with 500, a database holding only that row, and
a handful of concrete minute bars. -/
def row500 : DailyPrediction := { emptyDaily 0 with open_ := some 500 }

/-- A database whose only daily row is `row500`. -/
def db500 : Db := ⟨[row500], [], []⟩

/-- A bar sitting exactly at the noon target (tzOffset 0). -/
def bar720 : Bar := ⟨720, 7, 7⟩

/-- A 5-dollar bar at the noon target: far outside the SPY validation band. -/
def badBar5 : Bar := ⟨720, 5, 5⟩

/-- A bar one minute before a target of 700. -/
def barA : Bar := ⟨699, 1, 2⟩

/-- A bar one minute after a target of 700. -/
def barB : Bar := ⟨701, 3, 4⟩

/-- A bar one minute before the 900 (3:00 PM local) close target. -/
def barC : Bar := ⟨899, 5, 6⟩

/-- Concrete values for the prediction-service claims: two duplicate physical
rows for (date 0, open) differing in creation stamp, and a locked day row. -/
def dupOld : AIPrediction :=
  { pdate := 0, checkpoint := Checkpoint.open_, predicted_price := 100,
    confidence := 1, market_context := none, actual_price := none,
    prediction_error := none, created_at := 1 }

/-- The newer duplicate row for (date 0, open). -/
def dupNew : AIPrediction :=
  { pdate := 0, checkpoint := Checkpoint.open_, predicted_price := 101,
    confidence := 1, market_context := none, actual_price := none,
    prediction_error := none, created_at := 2 }

/-- A database holding only the two duplicate prediction rows. -/
def dbDup : Db := ⟨[], [], [dupOld, dupNew]⟩

/-- A generated batch holding a single open-checkpoint prediction. -/
def genOpen : DayPredictions :=
  { pdate := 0, market_context := none,
    predictions := [{ checkpoint := Checkpoint.open_, predicted_price := 102,
                      confidence := 1 }] }

/-- A day row whose band is already locked with source tag "ai". -/
def lockedDay : DailyPrediction :=
  { emptyDaily 0 with predLow := some 1, predHigh := some 2,
                      source := some "ai", locked := true }

/-- A database holding only the locked day row. -/
def dbLocked : Db := ⟨[lockedDay], [], []⟩

/-- Daily bars for the leakage-guard witness: two sessions before the simulated
date 3 and one after it. -/
def simBar0 : DailyBar := ⟨0, 10, 11, 9, 10, 1⟩

/-- The session right before the simulated date. -/
def simBar1 : DailyBar := ⟨1, 10, 12, 9, 11, 1⟩

/-- A session after the simulated date, which the fetch must exclude. -/
def simBar5 : DailyBar := ⟨5, 13, 14, 12, 13, 1⟩

/-- The full daily history handed to the simulator. -/
def simHistory : List DailyBar := [simBar0, simBar1, simBar5]

/-- The context the simulator builds from simHistory for date 3, lookback 2. -/
def simCtx : MarketContext := ⟨3, some 11, some 11, 12, 9, [simBar0, simBar1]⟩

/-- C8: the derived fields are a pure, deterministic function of
(close, predLow, predHigh): any two rows agreeing on those three inputs get the
same rangeHit and absErrorToClose, with rangeHit true iff predLow ≤ close ≤ predHigh
and absErrorToClose = |close − (predLow + predHigh)/2|. -/
theorem derived_fields_pure_of_inputs (p q : DailyPrediction) (c lo hi : ℚ)
    (hpc : p.close = some c) (hpl : p.predLow = some lo) (hph : p.predHigh = some hi)
    (hqc : q.close = some c) (hql : q.predLow = some lo) (hqh : q.predHigh = some hi) :
    (SPYTracker._update_derived_fields p).rangeHit
        = (SPYTracker._update_derived_fields q).rangeHit ∧
    (SPYTracker._update_derived_fields p).absErrorToClose
        = (SPYTracker._update_derived_fields q).absErrorToClose ∧
    (SPYTracker._update_derived_fields p).absErrorToClose = some |c - (lo + hi) / 2| ∧
    ((SPYTracker._update_derived_fields p).rangeHit = some true ↔ lo ≤ c ∧ c ≤ hi) := by
  simp only [SPYTracker._update_derived_fields, hpc, hpl, hph, hqc, hql, hqh]
  exact ⟨by simp, by simp, by simp [add_comm hi lo], by simp [decide_eq_true_eq]⟩

/-- C8 witness: at predLow = 580, predHigh = 585, close = 583 the recomputation
yields rangeHit = true and absErrorToClose = 1/2 (mid = 582.5). -/
theorem derived_fields_pure_of_inputs_witness :
    (SPYTracker._update_derived_fields SPYTracker.exampleRow).rangeHit = some true ∧
    (SPYTracker._update_derived_fields SPYTracker.exampleRow).absErrorToClose
      = some (1 / 2) := by
  have h := derived_fields_pure_of_inputs SPYTracker.exampleRow SPYTracker.exampleRow
    583 580 585 rfl rfl rfl rfl rfl rfl
  refine ⟨h.2.2.2.mpr (by norm_num), ?_⟩
  rw [h.2.2.1]
  norm_num


/-- Writing a checkpoint column makes its value readable back. -/
theorem getCheckpoint_setCheckpoint_same (p : DailyPrediction) (cp : Checkpoint) (v : ℚ) :
    (p.setCheckpoint cp v).getCheckpoint cp = some v := by
  cases cp <;> rfl

/-- Writing one checkpoint column leaves every other column unchanged. -/
theorem getCheckpoint_setCheckpoint_ne (p : DailyPrediction) (cp cp' : Checkpoint) (v : ℚ)
    (h : cp ≠ cp') : (p.setCheckpoint cp v).getCheckpoint cp' = p.getCheckpoint cp' := by
  cases cp <;> cases cp' <;> first | rfl | exact absurd rfl h

/-- Writing a checkpoint column does not change the row's date. -/
theorem pdate_setCheckpoint (p : DailyPrediction) (cp : Checkpoint) (v : ℚ) :
    (p.setCheckpoint cp v).pdate = p.pdate := by
  cases cp <;> rfl

/-- Writing a checkpoint column with the value it already holds is the identity. -/
theorem setCheckpoint_self (p : DailyPrediction) (cp : Checkpoint) (v : ℚ)
    (h : p.getCheckpoint cp = some v) : p.setCheckpoint cp v = p := by
  cases p
  cases cp <;> simp_all [DailyPrediction.getCheckpoint, DailyPrediction.setCheckpoint]

/-- A row found by date carries that date. -/
theorem findDaily_pdate {l : List DailyPrediction} {d : ℕ} {r : DailyPrediction}
    (h : findDaily l d = some r) : r.pdate = d := by
  simpa using List.find?_some h

/-- Date lookup hits a matching head row. -/
theorem findDaily_cons_pos {x : DailyPrediction} {xs : List DailyPrediction} {d : ℕ}
    (h : x.pdate = d) : findDaily (x :: xs) d = some x := by
  simp [findDaily, List.find?_cons_of_pos, h]

/-- Date lookup skips a non-matching head row. -/
theorem findDaily_cons_neg {x : DailyPrediction} {xs : List DailyPrediction} {d : ℕ}
    (h : ¬ x.pdate = d) : findDaily (x :: xs) d = findDaily xs d := by
  simp [findDaily, List.find?_cons_of_neg, h]

/-- After replacing the first row of a date, lookup of that date returns the
replacement (provided some row of the date existed and the replacement keeps
the date). -/
theorem findDaily_replaceFirstDaily {l : List DailyPrediction} {d : ℕ} (r : DailyPrediction)
    (hsome : (findDaily l d).isSome) (hr : r.pdate = d) :
    findDaily (replaceFirstDaily l d r) d = some r := by
  induction l with
  | nil => simp [findDaily] at hsome
  | cons x xs ih =>
      by_cases hx : x.pdate = d
      · have hbeq : (x.pdate == d) = true := by simpa using hx
        simp only [replaceFirstDaily, hbeq, if_true]
        exact findDaily_cons_pos hr
      · have hbeq : (x.pdate == d) = false := by simpa using hx
        simp only [replaceFirstDaily, hbeq, Bool.false_eq_true, if_false]
        rw [findDaily_cons_neg hx]
        rw [findDaily_cons_neg hx] at hsome
        exact ih hsome

/-- Replacing the first row of a date by the very row the lookup returns leaves
the table unchanged. -/
theorem replaceFirstDaily_self {l : List DailyPrediction} {d : ℕ} {r : DailyPrediction}
    (h : findDaily l d = some r) : replaceFirstDaily l d r = l := by
  induction l with
  | nil => simp [findDaily] at h
  | cons x xs ih =>
      by_cases hx : x.pdate = d
      · have hbeq : (x.pdate == d) = true := by simpa using hx
        have hxr : some x = some r := by rw [← findDaily_cons_pos hx, h]
        simp only [replaceFirstDaily, hbeq, if_true]
        rw [← Option.some_inj.mp hxr]
      · have hbeq : (x.pdate == d) = false := by simpa using hx
        rw [findDaily_cons_neg hx] at h
        simp only [replaceFirstDaily, hbeq, Bool.false_eq_true, if_false]
        rw [ih h]

/-- A validated capture_price call leaves the target date's row holding the new
price under the captured checkpoint and appends exactly one PriceLog row. -/
theorem capture_price_sets (db : Db) (cp : Checkpoint) (d : ℕ) (p : ℚ) (sym : String)
    (hv : validate_official_price (some p) sym = true) :
    ∃ r, findDaily (capture_price db cp d (some p) sym).daily d = some r ∧
         r.getCheckpoint cp = some p ∧ r.pdate = d ∧
         (capture_price db cp d (some p) sym).priceLog = db.priceLog ++ [⟨d, cp, p⟩] := by
  simp only [capture_price]
  rw [if_neg (by simp [hv])]
  cases hfd : findDaily db.daily d with
  | none =>
      refine ⟨(emptyDaily d).setCheckpoint cp p, ?_, getCheckpoint_setCheckpoint_same _ _ _,
        by rw [pdate_setCheckpoint]; rfl, rfl⟩
      show findDaily (db.daily ++ [(emptyDaily d).setCheckpoint cp p]) d = _
      have hpd : ((emptyDaily d).setCheckpoint cp p).pdate = d := by
        rw [pdate_setCheckpoint]; rfl
      unfold findDaily
      rw [List.find?_append]
      rw [show List.find? (fun r => r.pdate == d) db.daily = none from hfd]
      simp [List.find?_cons_of_pos, hpd]
  | some r0 =>
      refine ⟨r0.setCheckpoint cp p, ?_, getCheckpoint_setCheckpoint_same _ _ _,
        by rw [pdate_setCheckpoint]; exact findDaily_pdate hfd, rfl⟩
      exact findDaily_replaceFirstDaily _ (by rw [hfd]; rfl)
        (by rw [pdate_setCheckpoint]; exact findDaily_pdate hfd)

/-- The SPY validation band spelled out: a price passes iff it is positive and
within [50, 2000]. -/
theorem validate_official_price_spy (p : ℚ) :
    validate_official_price (some p) "SPY"
      = if p ≤ 0 ∨ p < 50 ∨ p > 2000 then false else true := rfl

/-- C2 (amended): calling capture_price twice in succession with the same
validated upstream price leaves the DailyPrediction table exactly as after one
call, but the second call appends one more PriceLogEntry; the code has no
already-set skip, so the repeated call re-writes the same value and logs again
rather than being a log-free no-op. -/
theorem capture_idempotent_amended (db : Db) (cp : Checkpoint) (d : ℕ) (p : ℚ) (sym : String)
    (hv : validate_official_price (some p) sym = true) :
    capture_price (capture_price db cp d (some p) sym) cp d (some p) sym
      = { capture_price db cp d (some p) sym with
          priceLog := (capture_price db cp d (some p) sym).priceLog ++ [⟨d, cp, p⟩] } := by
  obtain ⟨r, hfind, hget, hpd, -⟩ := capture_price_sets db cp d p sym hv
  set db1 := capture_price db cp d (some p) sym with hdb1
  simp only [capture_price]
  rw [if_neg (by simp [hv])]
  simp only [hfind]
  rw [setCheckpoint_self r cp p hget, replaceFirstDaily_self hfind]

/-- A refresh step never changes the date of the row being built. -/
theorem refreshStep_day_pdate (df : List Bar) (d : ℕ) (tz : ℤ) (force : Bool)
    (st : RefreshState) (c : Checkpoint × ℤ) :
    (refreshStep df d tz force st c).day.pdate = st.day.pdate := by
  cases hb : _get_bar_at_or_before df (c.2 + tz) with
  | none => simp [refreshStep, hb]
  | some bar =>
      simp only [refreshStep, hb]
      split
      · exact pdate_setCheckpoint _ _ _
      · rfl

/-- With force unset, a refresh step preserves every already-populated
checkpoint column. -/
theorem refreshStep_day_preserve (df : List Bar) (d : ℕ) (tz : ℤ)
    (st : RefreshState) (c : Checkpoint × ℤ) (cp : Checkpoint) (v : ℚ)
    (hv : st.day.getCheckpoint cp = some v) :
    (refreshStep df d tz false st c).day.getCheckpoint cp = some v := by
  cases hb : _get_bar_at_or_before df (c.2 + tz) with
  | none => simpa [refreshStep, hb] using hv
  | some bar =>
      simp only [refreshStep, hb]
      by_cases hc : c.1 = cp
      · subst hc
        rw [if_neg (by simp [hv])]
        exact hv
      · split
        · exact (getCheckpoint_setCheckpoint_ne _ _ _ _ hc).trans hv
        · exact hv

/-- A refresh step only ever writes the column of its own checkpoint. -/
theorem refreshStep_day_untouched (df : List Bar) (d : ℕ) (tz : ℤ) (force : Bool)
    (st : RefreshState) (c : Checkpoint × ℤ) (cp : Checkpoint) (hc : c.1 ≠ cp) :
    (refreshStep df d tz force st c).day.getCheckpoint cp = st.day.getCheckpoint cp := by
  cases hb : _get_bar_at_or_before df (c.2 + tz) with
  | none => simp [refreshStep, hb]
  | some bar =>
      simp only [refreshStep, hb]
      split
      · exact getCheckpoint_setCheckpoint_ne _ _ _ _ hc
      · rfl

/-- With force set and a bar resolved at the checkpoint's instant, the refresh
step overwrites the checkpoint column with the bar's extracted price. -/
theorem refreshStep_day_sets (df : List Bar) (d : ℕ) (tz : ℤ)
    (st : RefreshState) (cp : Checkpoint) (t : ℤ) (bar : Bar)
    (hbar : _get_bar_at_or_before df (t + tz) = some bar) :
    (refreshStep df d tz true st (cp, t)).day.getCheckpoint cp
      = some (checkpointPrice cp bar) := by
  simp only [refreshStep, hbar]
  rw [if_pos (Or.inr trivial)]
  exact getCheckpoint_setCheckpoint_same _ _ _

/-- The whole no-force checkpoint loop preserves populated columns. -/
theorem foldl_refreshStep_preserve (df : List Bar) (d : ℕ) (tz : ℤ)
    (cps : List (Checkpoint × ℤ)) (st : RefreshState) (cp : Checkpoint) (v : ℚ)
    (hv : st.day.getCheckpoint cp = some v) :
    (cps.foldl (refreshStep df d tz false) st).day.getCheckpoint cp = some v := by
  induction cps generalizing st with
  | nil => exact hv
  | cons c cs ih => exact ih _ (refreshStep_day_preserve _ _ _ _ _ _ _ hv)

/-- The checkpoint loop never changes the row's date. -/
theorem foldl_refreshStep_pdate (df : List Bar) (d : ℕ) (tz : ℤ) (force : Bool)
    (cps : List (Checkpoint × ℤ)) (st : RefreshState) :
    (cps.foldl (refreshStep df d tz force) st).day.pdate = st.day.pdate := by
  induction cps generalizing st with
  | nil => rfl
  | cons c cs ih => rw [List.foldl_cons, ih, refreshStep_day_pdate]

/-- refresh_actuals_for_date without force leaves a populated checkpoint column
of an existing row exactly as it was. -/
theorem refresh_preserves (db : Db) (d : ℕ) (df : List Bar) (tz : ℤ)
    (cp : Checkpoint) (r : DailyPrediction) (v : ℚ)
    (hfind : findDaily db.daily d = some r) (hv : r.getCheckpoint cp = some v) :
    (findDaily (refresh_actuals_for_date db d df false tz).1.daily d).map
        (fun x => x.getCheckpoint cp) = some (some v) := by
  cases hdf : df.isEmpty with
  | true => simp [refresh_actuals_for_date, hdf, hfind, hv]
  | false =>
      simp only [refresh_actuals_for_date, hdf, Bool.false_eq_true, if_false, hfind,
        Option.getD_some]
      rw [findDaily_replaceFirstDaily _ (by rw [hfind]; rfl)
        (by rw [foldl_refreshStep_pdate]; exact findDaily_pdate hfind)]
      simp only [Option.map_some']
      exact congrArg some (foldl_refreshStep_preserve df d tz CHECKPOINTS
        ⟨r, db.aiPreds, ⟨none, none, none, none⟩⟩ cp v hv)

/-- Running the forced checkpoint loop writes each resolvable checkpoint's
column with the price extracted from its resolved bar. -/
theorem foldl_CHECKPOINTS_sets (df : List Bar) (d : ℕ) (tz : ℤ) (st : RefreshState)
    (cp : Checkpoint) (t : ℤ) (bar : Bar) (hmem : (cp, t) ∈ CHECKPOINTS)
    (hbar : _get_bar_at_or_before df (t + tz) = some bar) :
    (CHECKPOINTS.foldl (refreshStep df d tz true) st).day.getCheckpoint cp
      = some (checkpointPrice cp bar) := by
  simp only [CHECKPOINTS, List.mem_cons, List.mem_singleton, Prod.mk.injEq,
    List.not_mem_nil, or_false] at hmem
  simp only [CHECKPOINTS, List.foldl_cons, List.foldl_nil]
  rcases hmem with ⟨rfl, rfl⟩ | ⟨rfl, rfl⟩ | ⟨rfl, rfl⟩ | ⟨rfl, rfl⟩
  · rw [refreshStep_day_untouched, refreshStep_day_untouched, refreshStep_day_untouched,
      refreshStep_day_sets _ _ _ _ _ _ _ hbar]
    · decide
    · decide
    · decide
  · rw [refreshStep_day_untouched, refreshStep_day_untouched,
      refreshStep_day_sets _ _ _ _ _ _ _ hbar]
    · decide
    · decide
  · rw [refreshStep_day_untouched, refreshStep_day_sets _ _ _ _ _ _ _ hbar]
    · decide
  · rw [refreshStep_day_sets _ _ _ _ _ _ _ hbar]

/-- refresh_actuals_for_date with force replaces the checkpoint column with the
price of the newly resolved bar whenever one resolves. -/
theorem refresh_force_sets (db : Db) (d : ℕ) (df : List Bar) (tz : ℤ)
    (cp : Checkpoint) (t : ℤ) (bar : Bar)
    (hmem : (cp, t) ∈ CHECKPOINTS)
    (hbar : _get_bar_at_or_before df (t + tz) = some bar) :
    (findDaily (refresh_actuals_for_date db d df true tz).1.daily d).map
        (fun x => x.getCheckpoint cp) = some (some (checkpointPrice cp bar)) := by
  have hdf : df.isEmpty = false := by
    cases df with
    | nil => simp [_get_bar_at_or_before] at hbar
    | cons a l => rfl
  cases hfd : findDaily db.daily d with
  | some r =>
      simp only [refresh_actuals_for_date, hdf, Bool.false_eq_true, if_false, hfd,
        Option.getD_some]
      rw [findDaily_replaceFirstDaily _ (by rw [hfd]; rfl)
        (by rw [foldl_refreshStep_pdate]; exact findDaily_pdate hfd)]
      simp only [Option.map_some']
      rw [foldl_CHECKPOINTS_sets _ _ _ _ _ _ _ hmem hbar]
  | none =>
      simp only [refresh_actuals_for_date, hdf, Bool.false_eq_true, if_false, hfd,
        Option.getD_none]
      have hsome : (findDaily (db.daily ++ [emptyDaily d]) d).isSome := by
        unfold findDaily
        rw [List.find?_append, show List.find? (fun r => r.pdate == d) db.daily = none from hfd]
        simp [emptyDaily]
      rw [findDaily_replaceFirstDaily _ hsome
        (by rw [foldl_refreshStep_pdate]; rfl)]
      simp only [Option.map_some']
      rw [foldl_CHECKPOINTS_sets _ _ _ _ _ _ _ hmem hbar]

/-- capture_price writes the new validated price into the checkpoint column of
the date's row unconditionally: the function takes no force flag. -/
theorem capture_sets_field (db : Db) (cp : Checkpoint) (d : ℕ) (p : ℚ) (sym : String)
    (hv : validate_official_price (some p) sym = true) :
    (findDaily (capture_price db cp d (some p) sym).daily d).map
        (fun x => x.getCheckpoint cp) = some (some p) := by
  obtain ⟨r, hf, hg, -, -⟩ := capture_price_sets db cp d p sym hv
  rw [hf]
  simp [hg]

/-- The last element of a strictly ascending bar list is a member and bounds
every element's timestamp from above. -/
theorem getLast?_pairwise_max {l : List Bar} (h : l.Pairwise (fun a b => a.ts < b.ts))
    {r : Bar} (hr : l.getLast? = some r) : r ∈ l ∧ ∀ x ∈ l, x.ts ≤ r.ts := by
  induction l with
  | nil => simp at hr
  | cons a l' ih =>
      cases l' with
      | nil =>
          simp only [List.getLast?_singleton, Option.some_inj] at hr
          subst hr
          refine ⟨List.mem_singleton_self _, ?_⟩
          intro x hx
          rw [List.mem_singleton.mp hx]
      | cons b l'' =>
          rw [List.getLast?_cons_cons] at hr
          obtain ⟨hmem, hmax⟩ := ih (List.pairwise_cons.mp h).2 hr
          refine ⟨List.mem_cons_of_mem _ hmem, ?_⟩
          intro x hx
          rcases List.mem_cons.mp hx with rfl | hx'
          · exact le_of_lt (List.rel_of_pairwise_cons h hmem)
          · exact hmax x hx'

/-- C3 (amended): bar selection tries, in order, the exact timestamp, the next
minute, then the latest bar at or before the target (which is strictly before,
since the exact probe already failed); it returns none for an empty series and,
corrected, whenever the series has no bar at or before the target and also no
bar at the minute after it; the open checkpoint extracts the bar's Open and
every other checkpoint its Close. -/
theorem bar_selection_order (df : List Bar) (ts : ℤ) (b : Bar) :
    (_get_bar_at_or_before [] ts = none) ∧
    (df.find? (fun x => x.ts == ts) = some b → _get_bar_at_or_before df ts = some b) ∧
    (df.find? (fun x => x.ts == ts) = none →
       df.find? (fun x => x.ts == ts + 1) = some b →
       _get_bar_at_or_before df ts = some b) ∧
    (df.find? (fun x => x.ts == ts) = none →
       df.find? (fun x => x.ts == ts + 1) = none →
       _get_bar_at_or_before df ts = (df.filter (fun x => decide (x.ts ≤ ts))).getLast?) ∧
    ((∀ x ∈ df, ¬ x.ts ≤ ts) → (∀ x ∈ df, x.ts ≠ ts + 1) →
       _get_bar_at_or_before df ts = none) ∧
    (df.Pairwise (fun x y => x.ts < y.ts) →
       df.find? (fun x => x.ts == ts) = none →
       df.find? (fun x => x.ts == ts + 1) = none →
       b ∈ df → b.ts ≤ ts →
       ∃ r, _get_bar_at_or_before df ts = some r ∧ r ∈ df ∧ r.ts < ts ∧
         ∀ x ∈ df, x.ts ≤ ts → x.ts ≤ r.ts) ∧
    (checkpointPrice Checkpoint.open_ b = b.barOpen) ∧
    (∀ cp : Checkpoint, cp ≠ Checkpoint.open_ → checkpointPrice cp b = b.barClose) := by
  have heq : df.find? (fun x => x.ts == ts) = none →
      df.find? (fun x => x.ts == ts + 1) = none →
      _get_bar_at_or_before df ts
        = (df.filter (fun x => decide (x.ts ≤ ts))).getLast? := by
    intro h1 h2
    simp [_get_bar_at_or_before, h1, h2]
  refine ⟨rfl, ?_, ?_, heq, ?_, ?_, rfl, ?_⟩
  · intro h
    simp [_get_bar_at_or_before, h]
  · intro h1 h2
    simp [_get_bar_at_or_before, h1, h2]
  · intro hle hne
    have h1 : df.find? (fun x => x.ts == ts) = none := by
      rw [List.find?_eq_none]
      intro x hx
      simp only [beq_iff_eq]
      intro hEq
      exact hle x hx (le_of_eq hEq)
    have h2 : df.find? (fun x => x.ts == ts + 1) = none := by
      rw [List.find?_eq_none]
      intro x hx
      simp only [beq_iff_eq]
      exact hne x hx
    rw [heq h1 h2]
    have : df.filter (fun x => decide (x.ts ≤ ts)) = [] := by
      rw [List.filter_eq_nil_iff]
      intro x hx
      simpa using hle x hx
    rw [this]
    rfl
  · intro hsort h1 h2 hb hble
    have hbf : b ∈ df.filter (fun x => decide (x.ts ≤ ts)) :=
      List.mem_filter.mpr ⟨hb, by simpa using hble⟩
    obtain ⟨r, hr⟩ : ∃ r, (df.filter (fun x => decide (x.ts ≤ ts))).getLast? = some r := by
      cases hfl : (df.filter (fun x => decide (x.ts ≤ ts))).getLast? with
      | some r => exact ⟨r, rfl⟩
      | none =>
          rw [List.getLast?_eq_none_iff] at hfl
          rw [hfl] at hbf
          simp at hbf
    have hps : (df.filter (fun x => decide (x.ts ≤ ts))).Pairwise (fun a b => a.ts < b.ts) :=
      List.Pairwise.sublist (List.filter_sublist df) hsort
    obtain ⟨hrm, hrmax⟩ := getLast?_pairwise_max hps hr
    have hr_in_df : r ∈ df := (List.mem_filter.mp hrm).1
    have hr_le : r.ts ≤ ts := by simpa using (List.mem_filter.mp hrm).2
    have hr_ne : r.ts ≠ ts := by
      intro hEq
      have := List.find?_eq_none.mp h1 r hr_in_df
      simp [hEq] at this
    refine ⟨r, ?_, hr_in_df, lt_of_le_of_ne hr_le hr_ne, ?_⟩
    · rw [heq h1 h2]
      exact hr
    · intro x hx hxle
      exact hrmax x (List.mem_filter.mpr ⟨hx, by simpa using hxle⟩)
  · intro cp hcp
    simp only [checkpointPrice, if_neg hcp]

/-- C1 (amended): refresh_actuals_for_date with force unset never changes a
populated DailyAggregate checkpoint value, and with force set it replaces the
column with the newly resolved price whenever a bar resolves; the scheduler
entry point capture_price, however, carries no force flag at all and overwrites
a populated checkpoint column with any validated new price. -/
theorem no_overwrite_without_force :
    (∀ (db : Db) (d : ℕ) (df : List Bar) (tz : ℤ) (cp : Checkpoint)
        (r : DailyPrediction) (v : ℚ),
        findDaily db.daily d = some r → r.getCheckpoint cp = some v →
        (findDaily (refresh_actuals_for_date db d df false tz).1.daily d).map
            (fun x => x.getCheckpoint cp) = some (some v)) ∧
    (∀ (db : Db) (d : ℕ) (df : List Bar) (tz : ℤ) (cp : Checkpoint) (t : ℤ) (bar : Bar),
        (cp, t) ∈ CHECKPOINTS → _get_bar_at_or_before df (t + tz) = some bar →
        (findDaily (refresh_actuals_for_date db d df true tz).1.daily d).map
            (fun x => x.getCheckpoint cp) = some (some (checkpointPrice cp bar))) ∧
    (∀ (db : Db) (cp : Checkpoint) (d : ℕ) (p : ℚ) (sym : String),
        validate_official_price (some p) sym = true →
        (findDaily (capture_price db cp d (some p) sym).daily d).map
            (fun x => x.getCheckpoint cp) = some (some p)) :=
  ⟨fun db d df tz cp r v hf hv => refresh_preserves db d df tz cp r v hf hv,
   fun db d df tz cp t bar hm hb => refresh_force_sets db d df tz cp t bar hm hb,
   fun db cp d p sym hv => capture_sets_field db cp d p sym hv⟩

/-- C1 witness: on a concrete database whose open column holds 500, the
no-force refresh keeps 500, the forced refresh writes the resolved noon bar's
close 7, and capture_price writes 600 over the populated open column. -/
theorem no_overwrite_without_force_witness :
    (findDaily (refresh_actuals_for_date db500 0 [bar720] false 0).1.daily 0).map
        (fun x => x.getCheckpoint Checkpoint.open_) = some (some 500) ∧
    (findDaily (refresh_actuals_for_date db500 0 [bar720] true 0).1.daily 0).map
        (fun x => x.getCheckpoint Checkpoint.noon) = some (some 7) ∧
    (findDaily (capture_price db500 Checkpoint.open_ 0 (some 600) "SPY").daily 0).map
        (fun x => x.getCheckpoint Checkpoint.open_) = some (some 600) := by
  refine ⟨no_overwrite_without_force.1 db500 0 [bar720] 0 Checkpoint.open_ row500 500
      (by decide) (by decide), ?_,
    no_overwrite_without_force.2.2 db500 Checkpoint.open_ 0 600 "SPY" (by decide)⟩
  exact no_overwrite_without_force.2.1 db500 0 [bar720] 0 Checkpoint.noon 720 bar720
      (by decide) (by decide)

/-- C1 counterexample: the open column of the stored row holds 500, yet
capture_price (an entry point with no force parameter) replaces it with the
newly resolved 600, so a populated checkpoint field is overwritten although no
force flag was supplied. -/
theorem capture_price_overwrite_cex :
    row500.open_ = some 500 ∧
    (findDaily (capture_price db500 Checkpoint.open_ 0 (some 600) "SPY").daily 0).map
        (fun r => r.open_) = some (some 600) := by decide

/-- C2 counterexample: two identical capture_price calls leave the daily table
identical to one call but produce two PriceLog rows, refuting the claim that
the second call appends no additional PriceLogEntry. -/
theorem capture_twice_extra_log_cex :
    (capture_price (capture_price db500 Checkpoint.open_ 0 (some 600) "SPY")
        Checkpoint.open_ 0 (some 600) "SPY").daily
      = (capture_price db500 Checkpoint.open_ 0 (some 600) "SPY").daily ∧
    (capture_price db500 Checkpoint.open_ 0 (some 600) "SPY").priceLog.length = 1 ∧
    (capture_price (capture_price db500 Checkpoint.open_ 0 (some 600) "SPY")
        Checkpoint.open_ 0 (some 600) "SPY").priceLog.length = 2 := by decide

/-- C2 witness: the two-call equation evaluated on a concrete database. -/
theorem capture_idempotent_amended_witness :
    capture_price (capture_price db500 Checkpoint.open_ 0 (some 600) "SPY")
        Checkpoint.open_ 0 (some 600) "SPY"
      = { capture_price db500 Checkpoint.open_ 0 (some 600) "SPY" with
          priceLog := (capture_price db500 Checkpoint.open_ 0 (some 600) "SPY").priceLog
            ++ [⟨0, Checkpoint.open_, 600⟩] } :=
  capture_idempotent_amended db500 Checkpoint.open_ 0 600 "SPY" (by decide)

/-- C9 (amended): capture_price validates before writing: a null price aborts
with no database change, a price failing validation aborts with no database
change, and validation rejects null, non-positive and out-of-[50, 2000] SPY
prices while accepting in-band ones. (The minute-bar refresh path, by contrast,
does not validate: see the counterexample.) -/
theorem capture_price_validates (db : Db) (cp : Checkpoint) (d : ℕ) (p : ℚ) (sym : String) :
    (capture_price db cp d none sym = db) ∧
    (validate_official_price (some p) sym = false → capture_price db cp d (some p) sym = db) ∧
    (validate_official_price none sym = false) ∧
    (p ≤ 0 ∨ p < 50 ∨ p > 2000 → validate_official_price (some p) "SPY" = false) ∧
    (50 ≤ p → p ≤ 2000 → validate_official_price (some p) "SPY" = true) := by
  refine ⟨rfl, ?_, rfl, ?_, ?_⟩
  · intro h
    simp only [capture_price]
    rw [if_pos h]
  · intro h
    rw [validate_official_price_spy, if_pos h]
  · intro h1 h2
    rw [validate_official_price_spy, if_neg]
    rintro (h | h | h) <;> linarith

/-- C9 witness: a 3000-dollar SPY price fails validation and the capture leaves
the database untouched. -/
theorem capture_price_validates_witness :
    capture_price db500 Checkpoint.noon 0 (some 3000) "SPY" = db500 ∧
    validate_official_price (some 3000) "SPY" = false := by
  have h := capture_price_validates db500 Checkpoint.noon 0 3000 "SPY"
  exact ⟨h.2.1 (h.2.2.2.1 (by norm_num)), h.2.2.2.1 (by norm_num)⟩

/-- C9 counterexample: a 5-dollar bar price is far outside the SPY validation
band, yet refresh_actuals_for_date writes it into the noon column: not every
capture path validates before writing. -/
theorem refresh_skips_validation_cex :
    validate_official_price (some 5) "SPY" = false ∧
    (findDaily (refresh_actuals_for_date (⟨[], [], []⟩ : Db) 0 [badBar5] false 0).1.daily 0).map
        (fun r => r.noon) = some (some 5) := by decide

/-- C3 counterexample: a series holding a single bar one minute after the
target has no bar at or before the target, yet selection returns that bar
rather than unavailable, refuting the claim's unavailability condition as
stated. -/
theorem bar_selection_unavailable_cex :
    (700 : ℤ) < barB.ts ∧
    _get_bar_at_or_before [barB] 700 = some barB := by decide

/-- C3 witness: with bars one minute either side of target 700 the next-minute
bar is chosen, and a close target of 900 one minute past the last bar falls
back to that last bar. -/
theorem bar_selection_order_witness :
    _get_bar_at_or_before [barA, barB] 700 = some barB ∧
    _get_bar_at_or_before [barC] 900 = some barC := by
  constructor
  · exact (bar_selection_order [barA, barB] 700 barB).2.2.1 (by decide) (by decide)
  · have h := (bar_selection_order [barC] 900 barC).2.2.2.1 (by decide) (by decide)
    rw [h]
    decide


/-- C10: the band computed from a non-empty list of checkpoint predictions has
low equal to the minimum predicted price and high equal to the maximum, hence
low ≤ high and every predicted price lies within the band; the empty list gives
None; and the endpoint-local copy of the computation agrees with the service
one. -/
theorem band_min_max (predictions : List AIPrediction) :
    (compute_band_from_predictions ([] : List AIPrediction) = none) ∧
    (_compute_band_from_ai predictions = compute_band_from_predictions predictions) ∧
    (predictions ≠ [] →
      ∃ lo hi, compute_band_from_predictions predictions = some (lo, hi) ∧
        lo ∈ predictions.map (fun p => p.predicted_price) ∧
        hi ∈ predictions.map (fun p => p.predicted_price) ∧
        lo ≤ hi ∧
        ∀ p ∈ predictions, lo ≤ p.predicted_price ∧ p.predicted_price ≤ hi) := by
  refine ⟨rfl, rfl, ?_⟩
  intro hne
  have hmapne : predictions.map (fun p => p.predicted_price) ≠ [] := by
    simpa [List.map_eq_nil_iff] using hne
  obtain ⟨lo, hlo⟩ : ∃ lo, (predictions.map (fun p => p.predicted_price)).min? = some lo := by
    cases hm : (predictions.map (fun p => p.predicted_price)).min? with
    | some lo => exact ⟨lo, rfl⟩
    | none => exact absurd (List.min?_eq_none_iff.mp hm) hmapne
  obtain ⟨hi, hhi⟩ : ∃ hi, (predictions.map (fun p => p.predicted_price)).max? = some hi := by
    cases hm : (predictions.map (fun p => p.predicted_price)).max? with
    | some hi => exact ⟨hi, rfl⟩
    | none => exact absurd (List.max?_eq_none_iff.mp hm) hmapne
  haveI : Std.Antisymm (fun x1 x2 : ℚ => x1 ≤ x2) := ⟨fun h1 h2 => le_antisymm h1 h2⟩
  have hlo' := (List.min?_eq_some_iff (fun a => le_refl a) min_choice
    (fun a b c => le_min_iff)).mp hlo
  have hhi' := (List.max?_eq_some_iff (fun a => le_refl a) max_choice
    (fun a b c => max_le_iff)).mp hhi
  refine ⟨lo, hi, ?_, hlo'.1, hhi'.1, hlo'.2 hi hhi'.1, ?_⟩
  · simp only [compute_band_from_predictions, hlo, hhi]
    rw [if_neg (by simp [List.isEmpty_iff, hne])]
  · intro p hp
    exact ⟨hlo'.2 _ (List.mem_map_of_mem _ hp), hhi'.2 _ (List.mem_map_of_mem _ hp)⟩

/-- C10 witness: on the two concrete duplicate rows the band is [100, 101],
both prices lie inside it, and the empty-list band is None. -/
theorem band_min_max_witness :
    compute_band_from_predictions [dupOld, dupNew] = some (100, 101) ∧
    compute_band_from_predictions ([] : List AIPrediction) = none := by
  obtain ⟨lo, hi, heq, hlomem, hhimem, hle, hall⟩ :=
    (band_min_max [dupOld, dupNew]).2.2 (by decide)
  refine ⟨?_, (band_min_max []).1⟩
  have : compute_band_from_predictions [dupOld, dupNew] = some (100, 101) := by decide
  exact this

/-- A matching (date, checkpoint) pair split across two appended lists violates
the uniqueness constraint. -/
theorem violates_of_mem_append (l1 l2 : List AIPrediction) (a b : AIPrediction)
    (ha : a ∈ l1) (hb : b ∈ l2) (hd : a.pdate = b.pdate)
    (hc : a.checkpoint = b.checkpoint) :
    violatesUniqueAIConstraint (l1 ++ l2) = true := by
  induction l1 with
  | nil => simp at ha
  | cons x xs ih =>
      simp only [List.cons_append, violatesUniqueAIConstraint, Bool.or_eq_true]
      rcases List.mem_cons.mp ha with rfl | ha'
      · left
        rw [List.any_eq_true]
        exact ⟨b, List.mem_append_right _ hb, by simp [hd, hc]⟩
      · right
        exact ih ha'

/-- C6: when the flush inside the atomic prediction write would violate the
(date, checkpoint) uniqueness constraint, the transaction is rolled back: with
replace_existing false the call returns the re-read canonical predictions of
the unchanged database instead of an error, and with replace_existing true the
violation is re-raised; moreover an existing row for the date sharing a
checkpoint with the new batch always triggers that violation when not
replacing. -/
theorem atomic_violation_rollback_reread (db : Db) (d : ℕ) (dp : DayPredictions)
    (now : ℕ) :
    (violatesUniqueAIConstraint (atomicInsertTable db d dp false now) = true →
        create_predictions_atomic db d dp false now
          = Except.ok (db, get_unique_predictions_for_date db d)) ∧
    (violatesUniqueAIConstraint (atomicInsertTable db d dp true now) = true →
        create_predictions_atomic db d dp true now = Except.error ()) ∧
    (∀ a ∈ db.aiPreds, a.pdate = d →
        ∀ p ∈ dp.predictions, p.checkpoint = a.checkpoint →
        violatesUniqueAIConstraint (atomicInsertTable db d dp false now) = true) := by
  refine ⟨?_, ?_, ?_⟩
  · intro h
    simp only [create_predictions_atomic, h, if_true]
    rw [if_neg (by simp)]
  · intro h
    simp only [create_predictions_atomic, h, if_true]
  · intro a ha had p hp hcp
    show violatesUniqueAIConstraint (db.aiPreds ++ mkAIRows d dp now) = true
    refine violates_of_mem_append db.aiPreds (mkAIRows d dp now) a
      ({ pdate := d, checkpoint := p.checkpoint, predicted_price := p.predicted_price,
         confidence := p.confidence, market_context := dp.market_context,
         actual_price := none, prediction_error := none, created_at := now })
      ha (List.mem_map_of_mem _ hp) had hcp.symm

/-- C6 witness: inserting a second open-checkpoint prediction for date 0
without replacing, into a database already holding open rows for that date,
violates the constraint at flush, and the call returns the unchanged database
with its canonical read. -/
theorem atomic_violation_rollback_reread_witness :
    violatesUniqueAIConstraint (atomicInsertTable dbDup 0 genOpen false 7) = true ∧
    create_predictions_atomic dbDup 0 genOpen false 7
      = Except.ok (dbDup, get_unique_predictions_for_date dbDup 0) := by
  have h := atomic_violation_rollback_reread dbDup 0 genOpen 7
  have hviol := h.2.2 dupOld (by decide) (by decide)
    { checkpoint := Checkpoint.open_, predicted_price := 102, confidence := 1 }
    (by decide) (by decide)
  exact ⟨hviol, h.1 hviol⟩

/-- C5 (amended): once a day's row is locked, create_ai_prediction_for_date
always fails with the 409 conflict and returns no state; while
create_or_update_daily_prediction raises the PredictionLockedException exactly
when the requested source differs from the stored one — a same-source publish
is let through (see the counterexample). -/
theorem locked_band_conflict (db : Db) (d : ℕ) (gen : DayPredictions) (now : ℕ)
    (band : ℚ × ℚ) (src : String) (lk : Bool) (day : DailyPrediction)
    (hfind : findDaily db.daily d = some day) (hlocked : day.locked = true) :
    create_ai_prediction_for_date db d gen now = Except.error 409 ∧
    (day.source ≠ some src →
      create_or_update_daily_prediction db d band src lk = Except.error ()) := by
  constructor
  · simp only [create_ai_prediction_for_date, hfind]
    rw [if_pos hlocked]
  · intro hsrc
    simp only [create_or_update_daily_prediction, hfind]
    rw [if_pos ⟨hlocked, hsrc⟩]

/-- C5 witness: on the concrete locked row, publishing through the endpoint
fails with 409 and publishing a manual-source band through the service raises
the lock conflict. -/
theorem locked_band_conflict_witness :
    create_ai_prediction_for_date dbLocked 0 genOpen 7 = Except.error 409 ∧
    create_or_update_daily_prediction dbLocked 0 (3, 4) "manual" true
      = Except.error () := by
  have h := locked_band_conflict dbLocked 0 genOpen 7 (3, 4) "manual" true lockedDay
    (by decide) (by decide)
  exact ⟨h.1, h.2 (by decide)⟩

/-- C5 counterexample: the stored row for date 0 is locked with band [1, 2] and
source "ai", yet create_or_update_daily_prediction with the same source "ai"
succeeds and overwrites the locked band with [3, 4] — not every attempt to
publish over a locked band fails. -/
theorem locked_band_same_source_overwrite_cex :
    lockedDay.locked = true ∧ lockedDay.predLow = some 1 ∧
    (create_or_update_daily_prediction dbLocked 0 (3, 4) "ai" true).isOk = true ∧
    ((create_or_update_daily_prediction dbLocked 0 (3, 4) "ai" true).toOption.map
        (fun x => ((x.2).predLow, (x.2).predHigh))) = some (some 3, some 4) := by
  decide

/-- The last element of a day-ascending daily-bar list is a member and bounds
every element's day from above. -/
theorem getLast?_pairwise_le_day {l : List DailyBar}
    (h : l.Pairwise (fun a b => a.day ≤ b.day)) {r : DailyBar}
    (hr : l.getLast? = some r) : r ∈ l ∧ ∀ x ∈ l, x.day ≤ r.day := by
  induction l with
  | nil => simp at hr
  | cons a l' ih =>
      cases l' with
      | nil =>
          simp only [List.getLast?_singleton, Option.some_inj] at hr
          subst hr
          refine ⟨List.mem_singleton_self _, ?_⟩
          intro x hx
          rw [List.mem_singleton.mp hx]
      | cons b l'' =>
          rw [List.getLast?_cons_cons] at hr
          obtain ⟨hmem, hmax⟩ := ih (List.pairwise_cons.mp h).2 hr
          refine ⟨List.mem_cons_of_mem _ hmem, ?_⟩
          intro x hx
          rcases List.mem_cons.mp hx with rfl | hx'
          · exact List.rel_of_pairwise_cons h hmem
          · exact hmax x hx'

/-- C7: the context the leakage-guarded simulator builds for a past date D only
contains data from strictly before D: every recent-price row has day < D, and
the current-price proxy (pre_market_price, equal to previous_close) is the
close of a bar strictly before D which, when the source history is
day-ascending, is the latest fetched bar before D — the prior session's
close. -/
theorem leakage_guard_strict_past (fullHistory : List DailyBar) (D lookback : ℕ)
    (ctx : MarketContext)
    (hok : _gather_market_context fullHistory D lookback = Except.ok ctx) :
    (∀ b ∈ ctx.recent_prices, b.day < D) ∧
    (∃ last, ctx.pre_market_price = some last.dayClose ∧
        ctx.previous_close = some last.dayClose ∧ last ∈ fullHistory ∧ last.day < D ∧
        (fullHistory.Pairwise (fun x y => x.day ≤ y.day) →
          ∀ b ∈ fullHistory, D - lookback * 3 ≤ b.day → b.day < D →
            b.day ≤ last.day)) := by
  simp only [_gather_market_context] at hok
  by_cases hemp : (yfDailyHistory fullHistory (D - lookback * 3) D).isEmpty
  · rw [if_pos hemp] at hok
    exact absurd hok (by simp)
  · rw [if_neg hemp] at hok
    have hctx := (Except.ok.inj hok).symm
    subst hctx
    have hmemhist : ∀ b ∈ yfDailyHistory fullHistory (D - lookback * 3) D,
        b ∈ fullHistory ∧ (D - lookback * 3) ≤ b.day ∧ b.day < D := by
      intro b hb
      obtain ⟨hmem, hp⟩ := List.mem_filter.mp hb
      refine ⟨hmem, ?_, ?_⟩
      · have := (Bool.and_eq_true _ _).mp hp
        simpa using this.1
      · have := (Bool.and_eq_true _ _).mp hp
        simpa using this.2
    constructor
    · intro b hb
      exact (hmemhist b (List.mem_of_mem_drop hb)).2.2
    · have hne : yfDailyHistory fullHistory (D - lookback * 3) D ≠ [] := by
        simpa [List.isEmpty_iff] using hemp
      obtain ⟨last, hlast⟩ : ∃ last,
          (yfDailyHistory fullHistory (D - lookback * 3) D).getLast? = some last := by
        cases hgl : (yfDailyHistory fullHistory (D - lookback * 3) D).getLast? with
        | some r => exact ⟨r, rfl⟩
        | none => exact absurd (List.getLast?_eq_none_iff.mp hgl) hne
      obtain ⟨hlm, -, hld⟩ := hmemhist last (by
        rw [List.getLast?_eq_getLast _ hne] at hlast
        exact (Option.some_inj.mp hlast) ▸ List.getLast_mem hne)
      refine ⟨last, by rw [hlast]; rfl, by rw [hlast]; rfl, hlm, hld, ?_⟩
      intro hsorted b hb hble hblt
      have hps : (yfDailyHistory fullHistory (D - lookback * 3) D).Pairwise
          (fun x y => x.day ≤ y.day) :=
        List.Pairwise.sublist (List.filter_sublist fullHistory) hsorted
      obtain ⟨-, hmax⟩ := getLast?_pairwise_le_day hps hlast
      refine hmax b (List.mem_filter.mpr ⟨hb, ?_⟩)
      simp [hble, hblt]

/-- Once the accumulator already holds an entry for a checkpoint, the dedup loop
never changes what lookup of that checkpoint returns. -/
theorem dedupe_find_stable (cp : Checkpoint) (l : List AIPrediction)
    (acc : List (Checkpoint × AIPrediction))
    (hsome : (acc.find? (fun e => decide (e.1 = cp))).isSome) :
    (dedupeByCheckpoint acc l).find? (fun e => decide (e.1 = cp))
      = acc.find? (fun e => decide (e.1 = cp)) := by
  induction l generalizing acc with
  | nil => rfl
  | cons p rest ih =>
      simp only [dedupeByCheckpoint]
      split
      · exact ih acc hsome
      · rw [ih (acc ++ [(p.checkpoint, p)]) (by
            rw [List.find?_append]
            cases hfa : acc.find? (fun e => decide (e.1 = cp)) with
            | some e => simp
            | none => rw [hfa] at hsome; simp at hsome)]
        rw [List.find?_append]
        cases hfa : acc.find? (fun e => decide (e.1 = cp)) with
        | some e => rfl
        | none => rw [hfa] at hsome; simp at hsome

/-- Looking a checkpoint up in the dedup map built from a list returns the first
row of that checkpoint in the list (paired with its key), provided the starting
accumulator has no entry for it. -/
theorem dedupe_lookup (cp : Checkpoint) (l : List AIPrediction)
    (acc : List (Checkpoint × AIPrediction))
    (hacc : acc.find? (fun e => decide (e.1 = cp)) = none) :
    (dedupeByCheckpoint acc l).find? (fun e => decide (e.1 = cp))
      = (l.find? (fun p => decide (p.checkpoint = cp))).map (fun p => (p.checkpoint, p)) := by
  induction l generalizing acc with
  | nil => simpa [dedupeByCheckpoint] using hacc
  | cons p rest ih =>
      simp only [dedupeByCheckpoint]
      by_cases hpc : p.checkpoint = cp
      · subst hpc
        rw [if_neg (by rw [hacc]; simp)]
        rw [dedupe_find_stable _ rest _ (by
            rw [List.find?_append, hacc, Option.none_or]
            simp)]
        rw [List.find?_append, hacc, Option.none_or]
        rw [List.find?_cons_of_pos _ (by simp)]
        simp

      · rw [List.find?_cons_of_neg _ (by simpa using hpc)]
        split
        · exact ih acc hacc
        · refine ih (acc ++ [(p.checkpoint, p)]) ?_
          rw [List.find?_append, hacc, Option.none_or]
          rw [List.find?_cons_of_neg _ (by simpa using hpc)]
          rfl

/-- The canonical read, rewritten: it is the per-checkpoint first match over
the newest-first list, taken in the fixed checkpoint order. -/
theorem get_unique_eq_filterMap (db : Db) (d : ℕ) :
    get_unique_predictions_for_date db d
      = [Checkpoint.open_, Checkpoint.noon, Checkpoint.twoPM, Checkpoint.close].filterMap
          (fun cp => (sortByCreatedDesc (db.aiPreds.filter (fun p => p.pdate == d))).find?
              (fun p => decide (p.checkpoint = cp))) := by
  unfold get_unique_predictions_for_date
  refine List.filterMap_congr ?_
  intro cp hcp
  rw [dedupe_lookup cp _ [] rfl]
  cases (sortByCreatedDesc (db.aiPreds.filter (fun p => p.pdate == d))).find?
      (fun p => decide (p.checkpoint = cp)) with
  | none => rfl
  | some r => rfl

/-- The newest-first sort really is sorted newest-first. -/
theorem sortByCreatedDesc_pairwise (l : List AIPrediction) :
    (sortByCreatedDesc l).Pairwise (fun a b => b.created_at ≤ a.created_at) := by
  have h : List.Pairwise (fun a b => (decide (b.created_at ≤ a.created_at)) = true)
      (l.mergeSort (fun a b => decide (b.created_at ≤ a.created_at))) :=
    List.sorted_mergeSort
      (fun a b c hab hbc => by
        simp only [decide_eq_true_eq] at hab hbc ⊢
        exact le_trans hbc hab)
      (fun a b => by
        simp only [Bool.or_eq_true, decide_eq_true_eq]
        exact Nat.le_total b.created_at a.created_at) l
  exact h.imp (fun hab => of_decide_eq_true hab)

/-- Sorting by creation time changes no memberships. -/
theorem mem_sortByCreatedDesc {l : List AIPrediction} {x : AIPrediction} :
    x ∈ sortByCreatedDesc l ↔ x ∈ l :=
  (List.mergeSort_perm l _).mem_iff

/-- In a newest-first list, the first row matching a checkpoint has the largest
creation stamp among all rows of that checkpoint. -/
theorem find?_sorted_max {l : List AIPrediction} {cp : Checkpoint}
    (hs : l.Pairwise (fun a b => b.created_at ≤ a.created_at)) {r : AIPrediction}
    (hf : l.find? (fun p => decide (p.checkpoint = cp)) = some r) :
    ∀ q ∈ l, q.checkpoint = cp → q.created_at ≤ r.created_at := by
  induction l with
  | nil => simp at hf
  | cons a rest ih =>
      by_cases ha : a.checkpoint = cp
      · rw [List.find?_cons_of_pos _ (by simpa using ha)] at hf
        obtain rfl := Option.some_inj.mp hf
        intro q hq hqcp
        rcases List.mem_cons.mp hq with rfl | hq'
        · exact le_refl _
        · exact List.rel_of_pairwise_cons hs hq'
      · rw [List.find?_cons_of_neg _ (by simpa using ha)] at hf
        intro q hq hqcp
        rcases List.mem_cons.mp hq with rfl | hq'
        · exact absurd hqcp ha
        · exact ih (List.pairwise_cons.mp hs).2 hf q hq' hqcp

/-- A filterMap by per-checkpoint lookups yields checkpoints in order: its image
under the checkpoint projection is a sublist of the probed checkpoint list. -/
theorem filterMap_checkpoints_sublist (cps : List Checkpoint)
    (f : Checkpoint → Option AIPrediction)
    (hf : ∀ cp r, f cp = some r → r.checkpoint = cp) :
    ((cps.filterMap f).map (fun p => p.checkpoint)).Sublist cps := by
  induction cps with
  | nil => simp
  | cons c cs ih =>
      rw [List.filterMap_cons]
      cases hfc : f c with
      | none => exact (ih).cons c
      | some r =>
          rw [List.map_cons, hf c r hfc]
          exact (ih).cons₂ c

/-- Membership in the canonical read, characterized: exactly the first match of
one of the four fixed checkpoints in the newest-first list. -/
theorem get_unique_mem_iff (db : Db) (d : ℕ) (r : AIPrediction) :
    r ∈ get_unique_predictions_for_date db d ↔
      (r.checkpoint ∈ [Checkpoint.open_, Checkpoint.noon, Checkpoint.twoPM,
          Checkpoint.close] ∧
        (sortByCreatedDesc (db.aiPreds.filter (fun p => p.pdate == d))).find?
            (fun p => decide (p.checkpoint = r.checkpoint)) = some r) := by
  rw [get_unique_eq_filterMap]
  rw [List.mem_filterMap]
  constructor
  · rintro ⟨cp, hcp, hf⟩
    have hrcp : r.checkpoint = cp := by
      have := List.find?_some hf
      simpa using this
    subst hrcp
    exact ⟨hcp, hf⟩
  · rintro ⟨hcp, hf⟩
    exact ⟨r.checkpoint, hcp, hf⟩

/-- C4: the canonical read returns at most one record per checkpoint, in the
fixed order open, noon, twoPM, close; every returned record is a stored record
of the requested date whose creation stamp is maximal among the stored rows of
its (date, checkpoint); and every stored row of the date under one of the four
checkpoints is represented by a returned record of that checkpoint. -/
theorem getCanonical_unique_newest (db : Db) (d : ℕ) :
    ((get_unique_predictions_for_date db d).map (fun p => p.checkpoint)).Sublist
        [Checkpoint.open_, Checkpoint.noon, Checkpoint.twoPM, Checkpoint.close] ∧
    (∀ r1 ∈ get_unique_predictions_for_date db d,
        ∀ r2 ∈ get_unique_predictions_for_date db d,
        r1.checkpoint = r2.checkpoint → r1 = r2) ∧
    (∀ r ∈ get_unique_predictions_for_date db d,
        r ∈ db.aiPreds ∧ r.pdate = d ∧
        ∀ q ∈ db.aiPreds, q.pdate = d → q.checkpoint = r.checkpoint →
          q.created_at ≤ r.created_at) ∧
    (∀ q ∈ db.aiPreds, q.pdate = d →
        q.checkpoint ∈ [Checkpoint.open_, Checkpoint.noon, Checkpoint.twoPM,
          Checkpoint.close] →
        ∃ r ∈ get_unique_predictions_for_date db d, r.checkpoint = q.checkpoint) := by
  refine ⟨?_, ?_, ?_, ?_⟩
  · rw [get_unique_eq_filterMap]
    refine filterMap_checkpoints_sublist _ _ ?_
    intro cp r hf
    simpa using List.find?_some hf
  · intro r1 h1 r2 h2 hcp
    obtain ⟨-, hf1⟩ := (get_unique_mem_iff db d r1).mp h1
    obtain ⟨-, hf2⟩ := (get_unique_mem_iff db d r2).mp h2
    rw [hcp] at hf1
    rw [hf1] at hf2
    exact Option.some_inj.mp hf2
  · intro r hr
    obtain ⟨-, hf⟩ := (get_unique_mem_iff db d r).mp hr
    have hrs : r ∈ sortByCreatedDesc (db.aiPreds.filter (fun p => p.pdate == d)) :=
      List.mem_of_find?_eq_some hf
    have hrf : r ∈ db.aiPreds.filter (fun p => p.pdate == d) :=
      mem_sortByCreatedDesc.mp hrs
    obtain ⟨hrm, hrd⟩ := List.mem_filter.mp hrf
    refine ⟨hrm, by simpa using hrd, ?_⟩
    intro q hq hqd hqcp
    have hqs : q ∈ sortByCreatedDesc (db.aiPreds.filter (fun p => p.pdate == d)) :=
      mem_sortByCreatedDesc.mpr (List.mem_filter.mpr ⟨hq, by simpa using hqd⟩)
    exact find?_sorted_max (sortByCreatedDesc_pairwise _) hf q hqs hqcp
  · intro q hq hqd hqcp
    have hqs : q ∈ sortByCreatedDesc (db.aiPreds.filter (fun p => p.pdate == d)) :=
      mem_sortByCreatedDesc.mpr (List.mem_filter.mpr ⟨hq, by simpa using hqd⟩)
    have hsome : ((sortByCreatedDesc (db.aiPreds.filter (fun p => p.pdate == d))).find?
        (fun p => decide (p.checkpoint = q.checkpoint))).isSome := by
      rw [List.find?_isSome]
      exact ⟨q, hqs, by simp⟩
    obtain ⟨r, hr⟩ := Option.isSome_iff_exists.mp hsome
    have hrcp : r.checkpoint = q.checkpoint := by
      simpa using List.find?_some hr
    refine ⟨r, ?_, hrcp⟩
    rw [get_unique_mem_iff]
    rw [hrcp]
    exact ⟨by rw [← hrcp] at hqcp ⊢; exact hrcp ▸ hqcp, hr⟩


/-- C7 witness: gathering context for simulated date 3 over the concrete
history yields exactly simCtx — whose pre-market proxy 11 is the close of the
day-1 session — and both context rows predate the simulation date. -/
theorem leakage_guard_strict_past_witness :
    _gather_market_context simHistory 3 2 = Except.ok simCtx ∧
    simBar0.day < 3 ∧ simBar1.day < 3 := by
  refine ⟨by rfl, ?_, ?_⟩
  · exact (leakage_guard_strict_past simHistory 3 2 simCtx (by rfl)).1 simBar0 (by decide)
  · exact (leakage_guard_strict_past simHistory 3 2 simCtx (by rfl)).1 simBar1 (by decide)

/-- C4 witness: with two physical duplicate rows for (date 0, open) the
canonical read returns exactly the newer row, and the elder row's creation
stamp is bounded by the returned one's. -/
theorem getCanonical_unique_newest_witness :
    get_unique_predictions_for_date dbDup 0 = [dupNew] ∧
    dupOld.created_at ≤ dupNew.created_at := by
  have hs : sortByCreatedDesc (dbDup.aiPreds.filter (fun p => p.pdate == 0))
      = [dupNew, dupOld] := by
    simp [sortByCreatedDesc, List.mergeSort, dbDup, dupOld, dupNew]
  have hmem : dupNew ∈ get_unique_predictions_for_date dbDup 0 := by
    rw [get_unique_mem_iff, hs]
    exact ⟨by decide, by decide⟩
  refine ⟨?_, ((getCanonical_unique_newest dbDup 0).2.2.1 dupNew hmem).2.2 dupOld
    (by decide) (by decide) (by decide)⟩
  rw [get_unique_eq_filterMap, hs]
  decide

end SPYTracker
